import Mathlib

set_option maxHeartbeats 1000000

/-! Verification model of the Axle landing page client script (`src/app.js`).

The script keeps one in-memory `state` object holding the session identity,
the assigned A/B variant, an append-only event log, an append-only lead list,
and two milestone sets (scroll depth, time on page).  DOM handlers mutate this
state synchronously.  We embed the state as `AppState`, tracked analytics
events as association lists (JavaScript object literals built by spread, where
a later binding overrides an earlier one), and each handler as a function from
state to state.  UI-only effects (toasts, CSS classes, focus) are modelled on
the element records where a claim needs them and dropped otherwise.
-/

/-- Values stored in tracked-event fields: the script only ever stores strings
and integers there. -/
inductive JValue where
  | str (s : String)
  | num (n : Int)
deriving DecidableEq

/-- A tracked analytics event: a JavaScript object literal, embedded as an
association list in insertion order.  Duplicate keys may occur (from `...data`
spread after the session context at `app.js:45-51`); lookups take the LAST
binding, matching the JavaScript rule that a later property wins. -/
abbrev Event := List (String × JValue)

/-- Last-binding lookup: the JavaScript semantics of reading a property from
an object literal that may repeat a key (later spread entries override). -/
def lookupLast : Event → String → Option JValue
  | [], _ => none
  | (k', v) :: rest, k =>
    match lookupLast rest k with
    | some w => some w
    | none => if k' = k then some v else none

/-- Read field `k` of a tracked event. -/
def objGet (ev : Event) (k : String) : Option JValue := lookupLast ev k

/-- A captured lead (`app.js:365-370`, `437-442`, `484-489`). -/
structure Lead where
  type : String
  timestamp : String
  data : List (String × String)
deriving DecidableEq

/-- The shared mutable `state` object (`app.js:4-12`) together with the
modal `active` classes managed by `openModal` / `closeModal`. -/
structure AppState where
  sessionId : String
  variant : String
  startTime : Int
  events : List Event
  leads : List Lead
  scrollDepths : List Int
  timeMilestones : List Int
  choiceOpen : Bool
  enterpriseOpen : Bool
  carrierOpen : Bool
deriving DecidableEq

/-- The object literal built by `trackEvent` (`app.js:45-51`): session context
first, then the extra `data` fields spread after it. -/
def mkEvent (name ts variant sid : String) (data : List (String × JValue)) : Event :=
  [("event", JValue.str name), ("timestamp", JValue.str ts),
   ("variant", JValue.str variant), ("sessionId", JValue.str sid)] ++ data

/-- The function `trackEvent(eventName, data)` (`app.js:44-55`): append the merged event to
`state.events`.  The timestamp string is passed in explicitly. -/
def trackEvent (st : AppState) (name : String) (data : List (String × JValue))
    (ts : String) : AppState :=
  { st with events := st.events ++ [mkEvent name ts st.variant st.sessionId data] }

/-! ### Form validation (`app.js:252-306`) -/

/-- The `String.prototype.trim` operation: strip whitespace from both ends. -/
def trimChars (cs : List Char) : List Char :=
  ((cs.dropWhile Char.isWhitespace).reverse.dropWhile Char.isWhitespace).reverse

/-- Does `pat` occur at the head of `cs`? -/
def charsMatchFrom : List Char → List Char → Bool
  | [], _ => true
  | _ :: _, [] => false
  | p :: ps, c :: cs => p == c && charsMatchFrom ps cs

/-- Substring occurrence, for `id.includes('Name')` / `id.includes('DOT')`. -/
def containsSub : List Char → List Char → Bool
  | [], pat => pat.isEmpty
  | c :: rest, pat => charsMatchFrom pat (c :: rest) || containsSub rest pat

/-- Substring test `s.includes(pat)` on strings. -/
def strContains (s pat : String) : Bool := containsSub s.data pat.data

/-- A character allowed in the email regex classes `[^\s@]`. -/
def segChar (c : Char) : Bool := !c.isWhitespace && c != '@'

/-- The email regex `/^[^\s@]+@[^\s@]+\.[^\s@]+$/` (`app.js:252`): a nonempty
run of non-space non-@ characters, one `@`, then a domain of non-space non-@
characters containing a dot that has at least one character on each side.
(The first `@` of the string must be the separator, since the local part
cannot contain `@`; the two domain segments around the dot may themselves
contain further dots, so the requirement is exactly an interior dot.) -/
def emailChars (cs : List Char) : Bool :=
  let a := cs.takeWhile (fun c => c != '@')
  match cs.dropWhile (fun c => c != '@') with
  | '@' :: t =>
    !a.isEmpty && a.all segChar && t.all segChar
      && ((t.drop 1).dropLast.any (fun c => c == '.'))
  | _ => false

/-- Membership in the name regex class `[a-zA-Z\s]`. -/
def letterOrSpace (c : Char) : Bool :=
  decide (('a' ≤ c ∧ c ≤ 'z') ∨ ('A' ≤ c ∧ c ≤ 'Z')) || c.isWhitespace

/-- The name regex `/^[a-zA-Z\s]{2,}$/` (`app.js:253`). -/
def nameChars (cs : List Char) : Bool :=
  decide (2 ≤ cs.length) && cs.all letterOrSpace

/-- The DOT regex `/^[0-9]*$/` (`app.js:284`). -/
def digitChars (cs : List Char) : Bool :=
  cs.all (fun c => decide ('0' ≤ c ∧ c ≤ '9'))

/-- A form input element as `validateField` reads and writes it: its value and
validation-relevant attributes, plus the UI state the function mutates (the
associated `#<id>Error` element's text and the `valid`/`invalid` classes). -/
structure InputEl where
  value : String
  type : String
  id : String
  required : Bool
  minlength : Option Nat
  errorText : String
  classValid : Bool
  classInvalid : Bool
deriving DecidableEq

/-- The validation outcome: the returned flag and the error message the
function writes to the error element. -/
structure VResult where
  valid : Bool
  message : String
deriving DecidableEq

/-- The decision logic of `validateField` (`app.js:262-287`): the if/else-if
chain over the trimmed value.  Note the `minlength` branch is entered whenever
the attribute is present (`app.js:275`); if the minimum is met the chain ends
there and the Name/DOT branches are never reached. -/
def validateFieldResult (input : InputEl) : VResult :=
  let value := trimChars input.value.data
  if input.required && value.isEmpty then
    ⟨false, "This field is required"⟩
  else if input.type == "email" && !value.isEmpty && !emailChars value then
    ⟨false, "Please enter a valid email"⟩
  else
    match input.minlength with
    | some minLength =>
      if value.length < minLength then
        ⟨false, s!"Minimum {minLength} characters required"⟩
      else ⟨true, ""⟩
    | none =>
      if strContains input.id "Name" && !value.isEmpty && !nameChars value then
        ⟨false, "Please enter a valid name (letters only)"⟩
      else if strContains input.id "DOT" && !value.isEmpty && !digitChars value then
        ⟨false, "DOT number must be numeric"⟩
      else ⟨true, ""⟩

/-- The full `validateField(input)` (`app.js:262-306`): computes the decision,
writes the error message to the error element, updates the `valid`/`invalid`
classes (`app.js:289-303`), and returns `isValid`.  The second component is
the element with its mutated UI state. -/
def validateField (input : InputEl) : Bool × InputEl :=
  let value := trimChars input.value.data
  let r := validateFieldResult input
  let i1 := { input with errorText := r.message }
  let i2 :=
    if r.valid && !value.isEmpty then
      { i1 with classValid := true, classInvalid := false }
    else if !r.valid then
      { i1 with classValid := false, classInvalid := true }
    else
      { i1 with classValid := false, classInvalid := false }
  (r.valid, i2)

/-! ### Form submission handlers (`app.js:325-505`) -/

/-- The enterprise form values collected at `app.js:352-359`. -/
structure EntFormData where
  name : String
  email : String
  company : String
  phone : String
  fleetSize : String
  message : String
deriving DecidableEq

/-- The carrier form values collected at `app.js:421-431`. -/
structure CarFormData where
  name : String
  email : String
  company : String
  phone : String
  fleetType : String
  vehicleCount : String
  dot : String
  insurance : String
  message : String
deriving DecidableEq

/-- The lead stored by the enterprise submit handler (`app.js:365-369`). -/
def entLead (fd : EntFormData) (ts : String) : Lead :=
  ⟨"enterprise", ts,
   [("name", fd.name), ("email", fd.email), ("company", fd.company),
    ("phone", fd.phone), ("fleetSize", fd.fleetSize), ("message", fd.message)]⟩

/-- The lead stored by the carrier submit handler (`app.js:437-441`). -/
def carLead (fd : CarFormData) (ts : String) : Lead :=
  ⟨"carrier", ts,
   [("name", fd.name), ("email", fd.email), ("company", fd.company),
    ("phone", fd.phone), ("fleetType", fd.fleetType),
    ("vehicleCount", fd.vehicleCount), ("dot", fd.dot),
    ("insurance", fd.insurance), ("message", fd.message)]⟩

/-- All `.form-input[required]` elements of a form pass `validateField`
(`app.js:336-340`): the handler validates every one and ands the results. -/
def allRequiredValid (inputs : List InputEl) : Bool :=
  inputs.all fun i => (validateFieldResult i).valid

/-- The enterprise form submit handler (`app.js:332-392`), restricted to its
effect on the analytics state: if any required input fails validation it
returns before doing anything to `state` (`app.js:342-345`); otherwise it
pushes the lead (`app.js:370`) and tracks `form_submitted` (`app.js:374`).
`inputs` is the node list `enterpriseForm.querySelectorAll('.form-input[required]')`
and `fd` the values read from the six named fields. -/
def submitEnterprise (st : AppState) (inputs : List InputEl) (fd : EntFormData)
    (ts : String) : AppState :=
  if allRequiredValid inputs then
    let st1 := { st with leads := st.leads ++ [entLead fd ts] }
    trackEvent st1 "form_submitted"
      [("formType", JValue.str "enterprise"), ("variant", JValue.str st1.variant)] ts
  else st

/-- The carrier form submit handler (`app.js:401-464`): same gate, lead of
type `carrier`, and `form_submitted` tracked with only `formType`
(`app.js:446`). -/
def submitCarrier (st : AppState) (inputs : List InputEl) (fd : CarFormData)
    (ts : String) : AppState :=
  if allRequiredValid inputs then
    let st1 := { st with leads := st.leads ++ [carLead fd ts] }
    trackEvent st1 "form_submitted" [("formType", JValue.str "carrier")] ts
  else st

/-- The email capture submit handler (`app.js:472-505`): trims the input,
returns if the email regex rejects it (`app.js:478-481`), else pushes an
`email` lead and tracks `email_captured`. -/
def submitEmailCapture (st : AppState) (rawEmail : String) (ts : String) : AppState :=
  if emailChars (trimChars rawEmail.data) then
    trackEvent
      { st with leads := st.leads ++ [⟨"email", ts, [("email", ⟨trimChars rawEmail.data⟩)]⟩] }
      "email_captured" [("email", JValue.str ⟨trimChars rawEmail.data⟩)] ts
  else st

/-! ### Modal management (`app.js:163-212`) -/

/-- The three modals in the `modals` lookup table (`app.js:166-170`). -/
inductive ModalName where
  | choice
  | enterprise
  | carrier
deriving DecidableEq

/-- The string key of a modal, as passed to `trackEvent`. -/
def modalId : ModalName → String
  | .choice => "choice"
  | .enterprise => "enterprise"
  | .carrier => "carrier"

/-- Whether a modal currently has the `active` class. -/
def modalActive (st : AppState) : ModalName → Bool
  | .choice => st.choiceOpen
  | .enterprise => st.enterpriseOpen
  | .carrier => st.carrierOpen

/-- Set one modal's `active` class. -/
def setModal (st : AppState) (mn : ModalName) (b : Bool) : AppState :=
  match mn with
  | .choice => { st with choiceOpen := b }
  | .enterprise => { st with enterpriseOpen := b }
  | .carrier => { st with carrierOpen := b }

/-- The handler `openModal(modalName)` (`app.js:172-183`): add `active`, track
`modal_opened`.  (Body overflow and focus are UI-only and not modelled.) -/
def openModal (st : AppState) (mn : ModalName) (ts : String) : AppState :=
  trackEvent (setModal st mn true) "modal_opened"
    [("modal", JValue.str (modalId mn))] ts

/-- The handler `closeModal(modalName)` (`app.js:185-192`): remove `active`, track
`modal_closed` — unconditionally, whether or not the modal was open. -/
def closeModal (st : AppState) (mn : ModalName) (ts : String) : AppState :=
  trackEvent (setModal st mn false) "modal_closed"
    [("modal", JValue.str (modalId mn))] ts

/-! ### Scroll-depth and time-on-page milestones (`app.js:84-110`) -/

/-- One iteration of the `[25, 50, 75, 100].forEach` body (`app.js:91-96`):
if the computed percent has reached milestone `m` and `m` is not yet in the
set, add it to the set and track `scroll_depth`. -/
def scrollMilestoneStep (percent : Int) (ts : String) (st : AppState) (m : Int) : AppState :=
  if m ≤ percent ∧ ¬ (m ∈ st.scrollDepths) then
    trackEvent { st with scrollDepths := st.scrollDepths ++ [m] }
      "scroll_depth" [("depth", JValue.num m)] ts
  else st

/-- The scroll handler (`app.js:86-99`) as a function of the computed scroll
percent: run the milestone body over `[25, 50, 75, 100]`. -/
def scrollStep (st : AppState) (percent : Int) (ts : String) : AppState :=
  [25, 50, 75, 100].foldl (scrollMilestoneStep percent ts) st

/-- One iteration of the `[30, 60, 120].forEach` body (`app.js:104-109`). -/
def timeMilestoneStep (timeOnPage : Int) (ts : String) (st : AppState) (m : Int) : AppState :=
  if m ≤ timeOnPage ∧ ¬ (m ∈ st.timeMilestones) then
    trackEvent { st with timeMilestones := st.timeMilestones ++ [m] }
      "time_on_page" [("seconds", JValue.num m)] ts
  else st

/-- The time-on-page interval callback (`app.js:102-110`) as a function of the
computed whole seconds on page. -/
def timeStep (st : AppState) (timeOnPage : Int) (ts : String) : AppState :=
  [30, 60, 120].foldl (timeMilestoneStep timeOnPage ts) st

/-! ### Countdown timer (`app.js:628-646`) -/

/-- The function `updateCountdown` (`app.js:632-643`) as a function of the fixed target
instant and the current time, both in milliseconds: render `"Expired"` once
the difference is non-positive, else format by floor division and modulus.
(On the positive branch the JavaScript float computation
`Math.floor((diff / unit) % base)` equals integer `(diff / unit) % base`.) -/
def updateCountdown (endTime now : Int) : String :=
  let diff := endTime - now
  if diff ≤ 0 then "Expired"
  else
    let d := diff.toNat / (1000 * 60 * 60 * 24)
    let h := diff.toNat / (1000 * 60 * 60) % 24
    let m := diff.toNat / (1000 * 60) % 60
    let s := diff.toNat / 1000 % 60
    s!"{d}d {h}h {m}m {s}s"

/-! ### Session initialisation (`app.js:4-12`, `40-42`, `58`) -/

/-- The variant assignment `Math.random() < 0.5 ? 'A' : 'B'` (`app.js:6`)
as a function of the drawn random number. -/
def assignVariant (r : ℚ) : String :=
  if r < 1 / 2 then "A" else "B"

/-- The k-th value `Math.random` can return: the standard model of the
browser primitive is a uniform draw of `k / 2^53` for `k < 2^53`. -/
def dyadicDraw (k : ℕ) : ℚ := (k : ℚ) / 2 ^ 53

/-- The state right after script load (`app.js:4-12` and the initial
`trackEvent('page_view')` at `app.js:58`): fresh logs, empty milestone sets,
no modal open, variant assigned from the random draw `r`. -/
def initState (sid : String) (r : ℚ) (t0 : Int) (ts : String) : AppState :=
  trackEvent
    { sessionId := sid, variant := assignVariant r, startTime := t0,
      events := [], leads := [], scrollDepths := [], timeMilestones := [],
      choiceOpen := false, enterpriseOpen := false, carrierOpen := false }
    "page_view" [] ts

/-! ### The session as a transition system -/

/-- The state-mutating handlers of the script, as one action type.  Each
constructor carries the external inputs the corresponding DOM handler reads
(element values, computed scroll percent, clock readings). -/
inductive Act where
  | actScroll (percent : Int) (ts : String)
  | actTick (timeOnPage : Int) (ts : String)
  | actSubmitEnt (inputs : List InputEl) (fd : EntFormData) (ts : String)
  | actSubmitCar (inputs : List InputEl) (fd : CarFormData) (ts : String)
  | actSubmitEmail (rawEmail : String) (ts : String)
  | actOpenModal (mn : ModalName) (ts : String)
  | actCloseModal (mn : ModalName) (ts : String)
  | actCta (button : String) (ts : String)

/-- Dispatch one handler invocation (the CTA click handlers at
`app.js:217-247` track `cta_clicked` and open a modal; we separate the
tracking action, the modal opening being `actOpenModal`). -/
def step (st : AppState) : Act → AppState
  | .actScroll p ts => scrollStep st p ts
  | .actTick t ts => timeStep st t ts
  | .actSubmitEnt inputs fd ts => submitEnterprise st inputs fd ts
  | .actSubmitCar inputs fd ts => submitCarrier st inputs fd ts
  | .actSubmitEmail em ts => submitEmailCapture st em ts
  | .actOpenModal mn ts => openModal st mn ts
  | .actCloseModal mn ts => closeModal st mn ts
  | .actCta button ts => trackEvent st "cta_clicked" [("button", JValue.str button)] ts

/-- Run a sequence of handler invocations. -/
def run (st : AppState) (acts : List Act) : AppState := acts.foldl step st

/-! ### Event counting -/

/-- Predicate: `ev` is a `scroll_depth` event for milestone `m`. -/
def IsDepthEv (m : Int) (ev : Event) : Prop :=
  objGet ev "event" = some (JValue.str "scroll_depth")
    ∧ objGet ev "depth" = some (JValue.num m)

instance (m : Int) (ev : Event) : Decidable (IsDepthEv m ev) := by
  unfold IsDepthEv; infer_instance

/-- Predicate: `ev` is a `time_on_page` event for milestone `m`. -/
def IsTimeEv (m : Int) (ev : Event) : Prop :=
  objGet ev "event" = some (JValue.str "time_on_page")
    ∧ objGet ev "seconds" = some (JValue.num m)

instance (m : Int) (ev : Event) : Decidable (IsTimeEv m ev) := by
  unfold IsTimeEv; infer_instance

/-- Number of `scroll_depth` events for milestone `m` in the log. -/
def depthCount (m : Int) (evs : List Event) : ℕ :=
  evs.countP fun ev => decide (IsDepthEv m ev)

/-- Number of `time_on_page` events for milestone `m` in the log. -/
def timeCount (m : Int) (evs : List Event) : ℕ :=
  evs.countP fun ev => decide (IsTimeEv m ev)

/-! ### Helper lemmas -/

/-- Last-binding lookup distributes over append, preferring the right part. -/
theorem lookupLast_append (l1 l2 : Event) (k : String) :
    lookupLast (l1 ++ l2) k =
      match lookupLast l2 k with
      | some w => some w
      | none => lookupLast l1 k := by
  induction l1 with
  | nil => simp [lookupLast]; cases lookupLast l2 k <;> rfl
  | cons p l1 ih =>
    obtain ⟨k', v⟩ := p
    cases h2 : lookupLast l2 k <;> simp [lookupLast, ih, h2]

/-- Reading `event` from a tracked-event literal whose extra fields do not
contain an `event` key yields the event name. -/
theorem objGet_mkEvent_event (name ts variant sid : String)
    (data : List (String × JValue)) (h : lookupLast data "event" = none) :
    objGet (mkEvent name ts variant sid data) "event" = some (JValue.str name) := by
  show lookupLast _ _ = _
  rw [mkEvent, lookupLast_append, h]
  rfl

/-- A tracked event whose name is not `scroll_depth` (and whose extra fields
do not override `event`) is not a scroll-depth event. -/
theorem not_isDepthEv (m : Int) (name ts variant sid : String)
    (data : List (String × JValue)) (hk : lookupLast data "event" = none)
    (hn : name ≠ "scroll_depth") :
    ¬ IsDepthEv m (mkEvent name ts variant sid data) := by
  intro hd
  have h1 := hd.1
  rw [objGet_mkEvent_event name ts variant sid data hk] at h1
  exact hn (by injection h1 with h1'; injection h1')

/-- A tracked event whose name is not `time_on_page` (and whose extra fields
do not override `event`) is not a time-on-page event. -/
theorem not_isTimeEv (m : Int) (name ts variant sid : String)
    (data : List (String × JValue)) (hk : lookupLast data "event" = none)
    (hn : name ≠ "time_on_page") :
    ¬ IsTimeEv m (mkEvent name ts variant sid data) := by
  intro hd
  have h1 := hd.1
  rw [objGet_mkEvent_event name ts variant sid data hk] at h1
  exact hn (by injection h1 with h1'; injection h1')

/-- The event tracked by the scroll handler for milestone `mm` is a
scroll-depth event exactly for that milestone. -/
theorem isDepthEv_scroll (m mm : Int) (ts variant sid : String) :
    IsDepthEv m (mkEvent "scroll_depth" ts variant sid [("depth", JValue.num mm)])
      ↔ mm = m := by
  have h1 : objGet (mkEvent "scroll_depth" ts variant sid [("depth", JValue.num mm)])
      "event" = some (JValue.str "scroll_depth") := rfl
  have h2 : objGet (mkEvent "scroll_depth" ts variant sid [("depth", JValue.num mm)])
      "depth" = some (JValue.num mm) := rfl
  unfold IsDepthEv
  rw [h1, h2]
  constructor
  · rintro ⟨-, h⟩
    injection h with h'
    injection h'
  · rintro rfl
    exact ⟨rfl, rfl⟩

/-- The event tracked by the interval callback for milestone `mm` is a
time-on-page event exactly for that milestone. -/
theorem isTimeEv_time (m mm : Int) (ts variant sid : String) :
    IsTimeEv m (mkEvent "time_on_page" ts variant sid [("seconds", JValue.num mm)])
      ↔ mm = m := by
  have h1 : objGet (mkEvent "time_on_page" ts variant sid [("seconds", JValue.num mm)])
      "event" = some (JValue.str "time_on_page") := rfl
  have h2 : objGet (mkEvent "time_on_page" ts variant sid [("seconds", JValue.num mm)])
      "seconds" = some (JValue.num mm) := rfl
  unfold IsTimeEv
  rw [h1, h2]
  constructor
  · rintro ⟨-, h⟩
    injection h with h'
    injection h'
  · rintro rfl
    exact ⟨rfl, rfl⟩

/-- Appending one event changes the scroll-depth count by its own indicator. -/
theorem depthCount_append (m : Int) (evs : List Event) (ev : Event) :
    depthCount m (evs ++ [ev])
      = depthCount m evs + (if IsDepthEv m ev then 1 else 0) := by
  simp [depthCount, List.countP_append, List.countP_cons]

/-- Appending one event changes the time-on-page count by its own indicator. -/
theorem timeCount_append (m : Int) (evs : List Event) (ev : Event) :
    timeCount m (evs ++ [ev])
      = timeCount m evs + (if IsTimeEv m ev then 1 else 0) := by
  simp [timeCount, List.countP_append, List.countP_cons]

/-- The scroll-milestone invariant for a value `m`: at most one
`scroll_depth` event for `m` is in the log, and there is none unless `m` is
already in the milestone set. -/
def ScrollInv (m : Int) (st : AppState) : Prop :=
  depthCount m st.events ≤ 1
    ∧ (depthCount m st.events = 0 ∨ m ∈ st.scrollDepths)

/-- The time-milestone invariant for a value `m`. -/
def TimeInv (m : Int) (st : AppState) : Prop :=
  timeCount m st.events ≤ 1
    ∧ (timeCount m st.events = 0 ∨ m ∈ st.timeMilestones)

/-- A state change that adds no scroll-depth events for `m` and keeps `m` in
the milestone set preserves the invariant. -/
theorem scrollInv_mono (m : Int) (st st' : AppState)
    (hcount : depthCount m st'.events = depthCount m st.events)
    (hset : m ∈ st.scrollDepths → m ∈ st'.scrollDepths) :
    ScrollInv m st → ScrollInv m st' := by
  rintro ⟨h1, h2⟩
  exact ⟨hcount ▸ h1, by rw [hcount]; exact h2.imp id hset⟩

/-- A state change that adds no time-on-page events for `m` and keeps `m` in
the milestone set preserves the invariant. -/
theorem timeInv_mono (m : Int) (st st' : AppState)
    (hcount : timeCount m st'.events = timeCount m st.events)
    (hset : m ∈ st.timeMilestones → m ∈ st'.timeMilestones) :
    TimeInv m st → TimeInv m st' := by
  rintro ⟨h1, h2⟩
  exact ⟨hcount ▸ h1, by rw [hcount]; exact h2.imp id hset⟩

/-- One scroll-milestone iteration preserves the scroll invariant. -/
theorem scrollMilestoneStep_scrollInv (m p mm : Int) (ts : String) (st : AppState)
    (h : ScrollInv m st) : ScrollInv m (scrollMilestoneStep p ts st mm) := by
  unfold scrollMilestoneStep
  split
  · rename_i hcond
    by_cases hmm : mm = m
    · subst hmm
      have hc0 : depthCount mm st.events = 0 := h.2.resolve_right hcond.2
      constructor
      · rw [trackEvent, depthCount_append]
        simp only [hc0, if_pos ((isDepthEv_scroll mm mm ts st.variant st.sessionId).mpr rfl)]
        omega
      · right
        simp [trackEvent]
    · refine scrollInv_mono m st _ ?_ ?_ h
      · rw [trackEvent, depthCount_append]
        simp only [if_neg (fun hd => hmm ((isDepthEv_scroll m mm ts st.variant st.sessionId).mp hd))]
        omega
      · intro hmem
        simp [trackEvent, hmem]
  · exact h
/-- One time-milestone iteration preserves the scroll invariant: it only ever
appends a `time_on_page` event. -/
theorem timeMilestoneStep_scrollInv (m t mm : Int) (ts : String) (st : AppState)
    (h : ScrollInv m st) : ScrollInv m (timeMilestoneStep t ts st mm) := by
  unfold timeMilestoneStep
  split
  · refine scrollInv_mono m st _ ?_ ?_ h
    · rw [trackEvent, depthCount_append]
      simp only [if_neg (not_isDepthEv m "time_on_page" ts st.variant st.sessionId
        [("seconds", JValue.num mm)] rfl (by decide))]
      omega
    · intro hmem
      simp [trackEvent, hmem]
  · exact h

/-- One time-milestone iteration preserves the time invariant. -/
theorem timeMilestoneStep_timeInv (m t mm : Int) (ts : String) (st : AppState)
    (h : TimeInv m st) : TimeInv m (timeMilestoneStep t ts st mm) := by
  unfold timeMilestoneStep
  split
  · rename_i hcond
    by_cases hmm : mm = m
    · subst hmm
      have hc0 : timeCount mm st.events = 0 := h.2.resolve_right hcond.2
      constructor
      · rw [trackEvent, timeCount_append]
        simp only [hc0, if_pos ((isTimeEv_time mm mm ts st.variant st.sessionId).mpr rfl)]
        omega
      · right
        simp [trackEvent]
    · refine timeInv_mono m st _ ?_ ?_ h
      · rw [trackEvent, timeCount_append]
        simp only [if_neg (fun hd => hmm ((isTimeEv_time m mm ts st.variant st.sessionId).mp hd))]
        omega
      · intro hmem
        simp [trackEvent, hmem]
  · exact h

/-- One scroll-milestone iteration preserves the time invariant. -/
theorem scrollMilestoneStep_timeInv (m p mm : Int) (ts : String) (st : AppState)
    (h : TimeInv m st) : TimeInv m (scrollMilestoneStep p ts st mm) := by
  unfold scrollMilestoneStep
  split
  · refine timeInv_mono m st _ ?_ ?_ h
    · rw [trackEvent, timeCount_append]
      simp only [if_neg (not_isTimeEv m "scroll_depth" ts st.variant st.sessionId
        [("depth", JValue.num mm)] rfl (by decide))]
      omega
    · intro hmem
      simp [trackEvent, hmem]
  · exact h

/-- Every handler invocation preserves the scroll invariant: the only handler
that ever tracks a `scroll_depth` event is the guarded scroll handler. -/
theorem step_scrollInv (m : Int) (a : Act) (st : AppState)
    (h : ScrollInv m st) : ScrollInv m (step st a) := by
  cases a with
  | actScroll p ts =>
    show ScrollInv m (scrollStep st p ts)
    simp only [scrollStep, List.foldl]
    exact scrollMilestoneStep_scrollInv _ _ _ _ _
      (scrollMilestoneStep_scrollInv _ _ _ _ _
        (scrollMilestoneStep_scrollInv _ _ _ _ _
          (scrollMilestoneStep_scrollInv _ _ _ _ _ h)))
  | actTick t ts =>
    show ScrollInv m (timeStep st t ts)
    simp only [timeStep, List.foldl]
    exact timeMilestoneStep_scrollInv _ _ _ _ _
      (timeMilestoneStep_scrollInv _ _ _ _ _
        (timeMilestoneStep_scrollInv _ _ _ _ _ h))
  | actSubmitEnt inputs fd ts =>
    show ScrollInv m (submitEnterprise st inputs fd ts)
    unfold submitEnterprise
    split
    · refine scrollInv_mono m st _ ?_ (fun hm => hm) h
      rw [trackEvent, depthCount_append]
      simp only [if_neg (not_isDepthEv m "form_submitted" ts st.variant st.sessionId
        [("formType", JValue.str "enterprise"), ("variant", JValue.str st.variant)] rfl
        (by decide))]
      omega
    · exact h
  | actSubmitCar inputs fd ts =>
    show ScrollInv m (submitCarrier st inputs fd ts)
    unfold submitCarrier
    split
    · refine scrollInv_mono m st _ ?_ (fun hm => hm) h
      rw [trackEvent, depthCount_append]
      simp only [if_neg (not_isDepthEv m "form_submitted" ts st.variant st.sessionId
        [("formType", JValue.str "carrier")] rfl (by decide))]
      omega
    · exact h
  | actSubmitEmail em ts =>
    show ScrollInv m (submitEmailCapture st em ts)
    unfold submitEmailCapture
    split
    · refine scrollInv_mono m st _ ?_ (fun hm => hm) h
      rw [trackEvent, depthCount_append]
      simp only [if_neg (not_isDepthEv m "email_captured" ts st.variant st.sessionId
        [("email", JValue.str ⟨trimChars em.data⟩)] rfl (by decide))]
      omega
    · exact h
  | actOpenModal mn ts =>
    show ScrollInv m (openModal st mn ts)
    refine scrollInv_mono m st _ ?_ ?_ h
    · cases mn <;>
        · rw [openModal, trackEvent, depthCount_append]
          simp only [setModal]
          rw [if_neg (not_isDepthEv m "modal_opened" ts st.variant st.sessionId
            [("modal", JValue.str _)] rfl (by decide))]
          omega
    · intro hm
      cases mn <;> simp [openModal, trackEvent, setModal, hm]
  | actCloseModal mn ts =>
    show ScrollInv m (closeModal st mn ts)
    refine scrollInv_mono m st _ ?_ ?_ h
    · cases mn <;>
        · rw [closeModal, trackEvent, depthCount_append]
          simp only [setModal]
          rw [if_neg (not_isDepthEv m "modal_closed" ts st.variant st.sessionId
            [("modal", JValue.str _)] rfl (by decide))]
          omega
    · intro hm
      cases mn <;> simp [closeModal, trackEvent, setModal, hm]
  | actCta button ts =>
    refine scrollInv_mono m st _ ?_ (fun hm => hm) h
    show depthCount m (trackEvent st "cta_clicked" _ ts).events = _
    rw [trackEvent, depthCount_append]
    simp only [if_neg (not_isDepthEv m "cta_clicked" ts st.variant st.sessionId
      [("button", JValue.str button)] rfl (by decide))]
    omega

/-- Every handler invocation preserves the time invariant. -/
theorem step_timeInv (m : Int) (a : Act) (st : AppState)
    (h : TimeInv m st) : TimeInv m (step st a) := by
  cases a with
  | actScroll p ts =>
    show TimeInv m (scrollStep st p ts)
    simp only [scrollStep, List.foldl]
    exact scrollMilestoneStep_timeInv _ _ _ _ _
      (scrollMilestoneStep_timeInv _ _ _ _ _
        (scrollMilestoneStep_timeInv _ _ _ _ _
          (scrollMilestoneStep_timeInv _ _ _ _ _ h)))
  | actTick t ts =>
    show TimeInv m (timeStep st t ts)
    simp only [timeStep, List.foldl]
    exact timeMilestoneStep_timeInv _ _ _ _ _
      (timeMilestoneStep_timeInv _ _ _ _ _
        (timeMilestoneStep_timeInv _ _ _ _ _ h))
  | actSubmitEnt inputs fd ts =>
    show TimeInv m (submitEnterprise st inputs fd ts)
    unfold submitEnterprise
    split
    · refine timeInv_mono m st _ ?_ (fun hm => hm) h
      rw [trackEvent, timeCount_append]
      simp only [if_neg (not_isTimeEv m "form_submitted" ts st.variant st.sessionId
        [("formType", JValue.str "enterprise"), ("variant", JValue.str st.variant)] rfl
        (by decide))]
      omega
    · exact h
  | actSubmitCar inputs fd ts =>
    show TimeInv m (submitCarrier st inputs fd ts)
    unfold submitCarrier
    split
    · refine timeInv_mono m st _ ?_ (fun hm => hm) h
      rw [trackEvent, timeCount_append]
      simp only [if_neg (not_isTimeEv m "form_submitted" ts st.variant st.sessionId
        [("formType", JValue.str "carrier")] rfl (by decide))]
      omega
    · exact h
  | actSubmitEmail em ts =>
    show TimeInv m (submitEmailCapture st em ts)
    unfold submitEmailCapture
    split
    · refine timeInv_mono m st _ ?_ (fun hm => hm) h
      rw [trackEvent, timeCount_append]
      simp only [if_neg (not_isTimeEv m "email_captured" ts st.variant st.sessionId
        [("email", JValue.str ⟨trimChars em.data⟩)] rfl (by decide))]
      omega
    · exact h
  | actOpenModal mn ts =>
    show TimeInv m (openModal st mn ts)
    refine timeInv_mono m st _ ?_ ?_ h
    · cases mn <;>
        · rw [openModal, trackEvent, timeCount_append]
          simp only [setModal]
          rw [if_neg (not_isTimeEv m "modal_opened" ts st.variant st.sessionId
            [("modal", JValue.str _)] rfl (by decide))]
          omega
    · intro hm
      cases mn <;> simp [openModal, trackEvent, setModal, hm]
  | actCloseModal mn ts =>
    show TimeInv m (closeModal st mn ts)
    refine timeInv_mono m st _ ?_ ?_ h
    · cases mn <;>
        · rw [closeModal, trackEvent, timeCount_append]
          simp only [setModal]
          rw [if_neg (not_isTimeEv m "modal_closed" ts st.variant st.sessionId
            [("modal", JValue.str _)] rfl (by decide))]
          omega
    · intro hm
      cases mn <;> simp [closeModal, trackEvent, setModal, hm]
  | actCta button ts =>
    refine timeInv_mono m st _ ?_ (fun hm => hm) h
    show timeCount m (trackEvent st "cta_clicked" _ ts).events = _
    rw [trackEvent, timeCount_append]
    simp only [if_neg (not_isTimeEv m "cta_clicked" ts st.variant st.sessionId
      [("button", JValue.str button)] rfl (by decide))]
    omega

/-- Running any handler sequence preserves the scroll invariant. -/
theorem run_scrollInv (m : Int) (acts : List Act) :
    ∀ st : AppState, ScrollInv m st → ScrollInv m (run st acts) := by
  induction acts with
  | nil => exact fun st h => h
  | cons a rest ih => exact fun st h => ih (step st a) (step_scrollInv m a st h)

/-- Running any handler sequence preserves the time invariant. -/
theorem run_timeInv (m : Int) (acts : List Act) :
    ∀ st : AppState, TimeInv m st → TimeInv m (run st acts) := by
  induction acts with
  | nil => exact fun st h => h
  | cons a rest ih => exact fun st h => ih (step st a) (step_timeInv m a st h)

/-- No handler ever removes a value from the scroll milestone set. -/
theorem step_scrollDepths_mono (m : Int) (a : Act) (st : AppState)
    (h : m ∈ st.scrollDepths) : m ∈ (step st a).scrollDepths := by
  cases a with
  | actScroll p ts =>
    show m ∈ (scrollStep st p ts).scrollDepths
    simp only [scrollStep, List.foldl]
    have mono : ∀ (s : AppState) (mm : Int), m ∈ s.scrollDepths →
        m ∈ (scrollMilestoneStep p ts s mm).scrollDepths := by
      intro s mm hm
      unfold scrollMilestoneStep
      split <;> simp [trackEvent, hm]
    exact mono _ _ (mono _ _ (mono _ _ (mono _ _ h)))
  | actTick t ts =>
    show m ∈ (timeStep st t ts).scrollDepths
    simp only [timeStep, List.foldl]
    have mono : ∀ (s : AppState) (mm : Int), m ∈ s.scrollDepths →
        m ∈ (timeMilestoneStep t ts s mm).scrollDepths := by
      intro s mm hm
      unfold timeMilestoneStep
      split <;> simp [trackEvent, hm]
    exact mono _ _ (mono _ _ (mono _ _ h))
  | actSubmitEnt inputs fd ts =>
    show m ∈ (submitEnterprise st inputs fd ts).scrollDepths
    unfold submitEnterprise
    split <;> simp [trackEvent, h]
  | actSubmitCar inputs fd ts =>
    show m ∈ (submitCarrier st inputs fd ts).scrollDepths
    unfold submitCarrier
    split <;> simp [trackEvent, h]
  | actSubmitEmail em ts =>
    show m ∈ (submitEmailCapture st em ts).scrollDepths
    unfold submitEmailCapture
    split <;> simp [trackEvent, h]
  | actOpenModal mn ts =>
    show m ∈ (openModal st mn ts).scrollDepths
    cases mn <;> simp [openModal, trackEvent, setModal, h]
  | actCloseModal mn ts =>
    show m ∈ (closeModal st mn ts).scrollDepths
    cases mn <;> simp [closeModal, trackEvent, setModal, h]
  | actCta button ts =>
    show m ∈ (trackEvent st "cta_clicked" _ ts).scrollDepths
    simp [trackEvent, h]

/-- No handler ever removes a value from the time milestone set. -/
theorem step_timeMilestones_mono (m : Int) (a : Act) (st : AppState)
    (h : m ∈ st.timeMilestones) : m ∈ (step st a).timeMilestones := by
  cases a with
  | actScroll p ts =>
    show m ∈ (scrollStep st p ts).timeMilestones
    simp only [scrollStep, List.foldl]
    have mono : ∀ (s : AppState) (mm : Int), m ∈ s.timeMilestones →
        m ∈ (scrollMilestoneStep p ts s mm).timeMilestones := by
      intro s mm hm
      unfold scrollMilestoneStep
      split <;> simp [trackEvent, hm]
    exact mono _ _ (mono _ _ (mono _ _ (mono _ _ h)))
  | actTick t ts =>
    show m ∈ (timeStep st t ts).timeMilestones
    simp only [timeStep, List.foldl]
    have mono : ∀ (s : AppState) (mm : Int), m ∈ s.timeMilestones →
        m ∈ (timeMilestoneStep t ts s mm).timeMilestones := by
      intro s mm hm
      unfold timeMilestoneStep
      split <;> simp [trackEvent, hm]
    exact mono _ _ (mono _ _ (mono _ _ h))
  | actSubmitEnt inputs fd ts =>
    show m ∈ (submitEnterprise st inputs fd ts).timeMilestones
    unfold submitEnterprise
    split <;> simp [trackEvent, h]
  | actSubmitCar inputs fd ts =>
    show m ∈ (submitCarrier st inputs fd ts).timeMilestones
    unfold submitCarrier
    split <;> simp [trackEvent, h]
  | actSubmitEmail em ts =>
    show m ∈ (submitEmailCapture st em ts).timeMilestones
    unfold submitEmailCapture
    split <;> simp [trackEvent, h]
  | actOpenModal mn ts =>
    show m ∈ (openModal st mn ts).timeMilestones
    cases mn <;> simp [openModal, trackEvent, setModal, h]
  | actCloseModal mn ts =>
    show m ∈ (closeModal st mn ts).timeMilestones
    cases mn <;> simp [closeModal, trackEvent, setModal, h]
  | actCta button ts =>
    show m ∈ (trackEvent st "cta_clicked" _ ts).timeMilestones
    simp [trackEvent, h]

/-- Running any handler sequence never removes a scroll milestone. -/
theorem run_scrollDepths_mono (m : Int) (acts : List Act) :
    ∀ st : AppState, m ∈ st.scrollDepths → m ∈ (run st acts).scrollDepths := by
  induction acts with
  | nil => exact fun st h => h
  | cons a rest ih => exact fun st h => ih (step st a) (step_scrollDepths_mono m a st h)

/-- Running any handler sequence never removes a time milestone. -/
theorem run_timeMilestones_mono (m : Int) (acts : List Act) :
    ∀ st : AppState, m ∈ st.timeMilestones → m ∈ (run st acts).timeMilestones := by
  induction acts with
  | nil => exact fun st h => h
  | cons a rest ih => exact fun st h => ih (step st a) (step_timeMilestones_mono m a st h)

/-- The freshly initialised session satisfies both milestone invariants. -/
theorem initState_inv (m : Int) (sid : String) (r : ℚ) (t0 : Int) (ts : String) :
    ScrollInv m (initState sid r t0 ts) ∧ TimeInv m (initState sid r t0 ts) := by
  have hd : depthCount m (initState sid r t0 ts).events = 0 := by
    rw [initState, trackEvent]
    show depthCount m ([] ++ [_]) = 0
    rw [depthCount_append]
    simp only [if_neg (not_isDepthEv m "page_view" ts _ _ [] rfl (by decide))]
    rfl
  have ht : timeCount m (initState sid r t0 ts).events = 0 := by
    rw [initState, trackEvent]
    show timeCount m ([] ++ [_]) = 0
    rw [timeCount_append]
    simp only [if_neg (not_isTimeEv m "page_view" ts _ _ [] rfl (by decide))]
    rfl
  exact ⟨⟨by omega, Or.inl hd⟩, ⟨by omega, Or.inl ht⟩⟩

/-- The session identity fields as one view. -/
def sessionView (st : AppState) : String × String × Int :=
  (st.sessionId, st.variant, st.startTime)

/-- No handler invocation changes `sessionId`, `variant` or `startTime`. -/
theorem step_sessionView (a : Act) (st : AppState) :
    sessionView (step st a) = sessionView st := by
  cases a with
  | actScroll p ts =>
    show sessionView (scrollStep st p ts) = sessionView st
    simp only [scrollStep, List.foldl]
    have pres : ∀ (s : AppState) (mm : Int),
        sessionView (scrollMilestoneStep p ts s mm) = sessionView s := by
      intro s mm
      unfold scrollMilestoneStep
      split <;> rfl
    rw [pres, pres, pres, pres]
  | actTick t ts =>
    show sessionView (timeStep st t ts) = sessionView st
    simp only [timeStep, List.foldl]
    have pres : ∀ (s : AppState) (mm : Int),
        sessionView (timeMilestoneStep t ts s mm) = sessionView s := by
      intro s mm
      unfold timeMilestoneStep
      split <;> rfl
    rw [pres, pres, pres]
  | actSubmitEnt inputs fd ts =>
    show sessionView (submitEnterprise st inputs fd ts) = sessionView st
    unfold submitEnterprise
    split <;> rfl
  | actSubmitCar inputs fd ts =>
    show sessionView (submitCarrier st inputs fd ts) = sessionView st
    unfold submitCarrier
    split <;> rfl
  | actSubmitEmail em ts =>
    show sessionView (submitEmailCapture st em ts) = sessionView st
    unfold submitEmailCapture
    split <;> rfl
  | actOpenModal mn ts => cases mn <;> rfl
  | actCloseModal mn ts => cases mn <;> rfl
  | actCta button ts => rfl

/-- No handler sequence changes `sessionId`, `variant` or `startTime`. -/
theorem run_sessionView (acts : List Act) :
    ∀ st : AppState, sessionView (run st acts) = sessionView st := by
  induction acts with
  | nil => exact fun st => rfl
  | cons a rest ih =>
    exact fun st => (ih (step st a)).trans (step_sessionView a st)

/-! ### Claim theorems -/

/-- Claim C1: For every submission of the enterprise form in which every
required field passes validation, the leads list grows by exactly one record
of type `enterprise` carrying the submitted field values, and the submission
appends exactly one `form_submitted` event. -/
theorem enterprise_submit_valid_adds_lead_and_event
    (st : AppState) (inputs : List InputEl) (fd : EntFormData) (ts : String)
    (h : allRequiredValid inputs = true) :
    (submitEnterprise st inputs fd ts).leads
        = st.leads ++ [⟨"enterprise", ts,
            [("name", fd.name), ("email", fd.email), ("company", fd.company),
             ("phone", fd.phone), ("fleetSize", fd.fleetSize),
             ("message", fd.message)]⟩]
      ∧ ∃ ev : Event,
          (submitEnterprise st inputs fd ts).events = st.events ++ [ev]
            ∧ objGet ev "event" = some (JValue.str "form_submitted") := by
  refine ⟨?_, mkEvent "form_submitted" ts st.variant st.sessionId
      [("formType", JValue.str "enterprise"), ("variant", JValue.str st.variant)],
      ?_, objGet_mkEvent_event _ _ _ _ _ rfl⟩
  · simp [submitEnterprise, h, trackEvent, entLead]
  · simp [submitEnterprise, h, trackEvent]

/-- Witness for C1: a concrete valid enterprise submission. -/
theorem enterprise_submit_valid_adds_lead_and_event_witness :
    (submitEnterprise ⟨"s", "A", 0, [], [], [], [], false, false, false⟩
        [⟨"Jo", "text", "entName", true, none, "", false, false⟩]
        ⟨"Jo", "a@b.co", "Acme", "555", "10", "hi"⟩ "t").leads
      = [⟨"enterprise", "t",
          [("name", "Jo"), ("email", "a@b.co"), ("company", "Acme"),
           ("phone", "555"), ("fleetSize", "10"), ("message", "hi")]⟩]
      ∧ ∃ ev : Event,
        (submitEnterprise ⟨"s", "A", 0, [], [], [], [], false, false, false⟩
            [⟨"Jo", "text", "entName", true, none, "", false, false⟩]
            ⟨"Jo", "a@b.co", "Acme", "555", "10", "hi"⟩ "t").events = [] ++ [ev]
          ∧ objGet ev "event" = some (JValue.str "form_submitted") :=
  enterprise_submit_valid_adds_lead_and_event _ _ _ _ (by decide)

/-- Claim C4: The validation predicate rejects an empty required value, accepts
`a@b.co`, rejects `a@b`, rejects a name-field value containing digits, and
accepts a 10-digit numeric DOT value. -/
theorem validate_examples :
    (validateFieldResult ⟨"", "text", "entCompany", true, none, "", false, false⟩).valid = false
  ∧ (validateFieldResult ⟨"a@b.co", "email", "entEmail", true, none, "", false, false⟩).valid = true
  ∧ (validateFieldResult ⟨"a@b", "email", "entEmail", true, none, "", false, false⟩).valid = false
  ∧ (validateFieldResult ⟨"John3", "text", "entName", true, none, "", false, false⟩).valid = false
  ∧ (validateFieldResult ⟨"1234567890", "text", "carDOT", true, none, "", false, false⟩).valid = true := by
  decide

/-- Claim C5: A submission with a failing required field is blocked atomically:
the handler returns with the state unchanged (so no lead and no
`form_submitted`/`email_captured` event), for all three forms. -/
theorem invalid_submission_blocked (st : AppState) (inputs : List InputEl)
    (fd : EntFormData) (cfd : CarFormData) (rawEmail ts : String) :
    (allRequiredValid inputs = false →
        submitEnterprise st inputs fd ts = st ∧ submitCarrier st inputs cfd ts = st)
  ∧ (emailChars (trimChars rawEmail.data) = false →
        submitEmailCapture st rawEmail ts = st) := by
  constructor
  · intro h
    constructor <;> simp [submitEnterprise, submitCarrier, h]
  · intro h
    simp [submitEmailCapture, h]

/-- Witness for C5: a concrete blocked enterprise submission and a concrete
blocked email capture. -/
theorem invalid_submission_blocked_witness :
    submitEnterprise ⟨"s", "A", 0, [], [], [], [], false, false, false⟩
        [⟨"", "text", "entName", true, none, "", false, false⟩]
        ⟨"", "", "", "", "", ""⟩ "t"
      = ⟨"s", "A", 0, [], [], [], [], false, false, false⟩
  ∧ submitEmailCapture ⟨"s", "A", 0, [], [], [], [], false, false, false⟩ "nope" "t"
      = ⟨"s", "A", 0, [], [], [], [], false, false, false⟩ :=
  ⟨((invalid_submission_blocked ⟨"s", "A", 0, [], [], [], [], false, false, false⟩
      [⟨"", "text", "entName", true, none, "", false, false⟩]
      ⟨"", "", "", "", "", ""⟩ ⟨"", "", "", "", "", "", "", "", ""⟩ "nope" "t").1
      (by decide)).1,
   (invalid_submission_blocked ⟨"s", "A", 0, [], [], [], [], false, false, false⟩
      [⟨"", "text", "entName", true, none, "", false, false⟩]
      ⟨"", "", "", "", "", ""⟩ ⟨"", "", "", "", "", "", "", "", ""⟩ "nope" "t").2
      (by decide)⟩

/-- Claim C6: Closing an already-closed modal leaves leads, previously recorded
events, milestone sets, session fields and all modal states unchanged, except
that it still appends exactly one `modal_closed` event for that modal id. -/
theorem close_closed_modal_only_tracks_event (st : AppState) (mn : ModalName)
    (ts : String) (h : modalActive st mn = false) :
    (closeModal st mn ts).leads = st.leads
  ∧ (closeModal st mn ts).events
      = st.events ++ [mkEvent "modal_closed" ts st.variant st.sessionId
          [("modal", JValue.str (modalId mn))]]
  ∧ objGet (mkEvent "modal_closed" ts st.variant st.sessionId
        [("modal", JValue.str (modalId mn))]) "event" = some (JValue.str "modal_closed")
  ∧ (∀ mn' : ModalName, modalActive (closeModal st mn ts) mn' = modalActive st mn')
  ∧ (closeModal st mn ts).sessionId = st.sessionId
  ∧ (closeModal st mn ts).variant = st.variant
  ∧ (closeModal st mn ts).startTime = st.startTime
  ∧ (closeModal st mn ts).scrollDepths = st.scrollDepths
  ∧ (closeModal st mn ts).timeMilestones = st.timeMilestones := by
  refine ⟨?_, ?_, objGet_mkEvent_event _ _ _ _ _ rfl, ?_, ?_, ?_, ?_, ?_, ?_⟩
  · cases mn <;> rfl
  · cases mn <;> rfl
  · intro mn'
    cases mn <;> cases mn' <;>
      simp_all [closeModal, trackEvent, setModal, modalActive]
  · cases mn <;> rfl
  · cases mn <;> rfl
  · cases mn <;> rfl
  · cases mn <;> rfl
  · cases mn <;> rfl

/-- Witness for C6: closing the (already closed) choice modal on a fresh
state. -/
theorem close_closed_modal_only_tracks_event_witness :
    (closeModal ⟨"s", "A", 0, [], [], [], [], false, false, false⟩
        ModalName.choice "t").events
      = [] ++ [mkEvent "modal_closed" "t" "A" "s"
          [("modal", JValue.str (modalId ModalName.choice))]]
  ∧ (closeModal ⟨"s", "A", 0, [], [], [], [], false, false, false⟩
        ModalName.choice "t").leads = [] :=
  ⟨(close_closed_modal_only_tracks_event ⟨"s", "A", 0, [], [], [], [], false, false, false⟩
      ModalName.choice "t" (by decide)).2.1,
   (close_closed_modal_only_tracks_event ⟨"s", "A", 0, [], [], [], [], false, false, false⟩
      ModalName.choice "t" (by decide)).1⟩

/-- Claim C10: Extra fields passed to the event tracker are spread after the
session context, so a colliding key (here `sessionId`) overrides it: the
tracked event's `sessionId` differs from the session's own. -/
theorem trackEvent_extra_fields_override_context :
    ∃ ev : Event,
      (trackEvent ⟨"session_1", "A", 0, [], [], [], [], false, false, false⟩
          "custom_event" [("sessionId", JValue.str "spoofed")] "t1").events = [ev]
        ∧ objGet ev "sessionId" = some (JValue.str "spoofed")
        ∧ ("spoofed" : String) ≠ "session_1" :=
  ⟨mkEvent "custom_event" "t1" "A" "session_1" [("sessionId", JValue.str "spoofed")],
    rfl, by decide, by decide⟩

/-- Claim C3, counterexample: A field whose id contains `Name`, whose value
contains digits (so the name-shape rule fails), but which carries a met
`minlength` attribute, validates as `⟨true, ""⟩`: the name-shape rule is
never consulted, contradicting the claimed unconditional priority chain. -/
theorem validate_priority_counterexample :
    validateFieldResult ⟨"John123", "text", "entName", true, some 2, "", false, false⟩
        = ⟨true, ""⟩
  ∧ strContains "entName" "Name" = true
  ∧ nameChars (trimChars ("John123" : String).data) = false := by
  decide

/-- Claim C3, amended: Validation checks required-ness, then email-shape, then
minimum length; the first failing rule determines the message.  However, when
the field carries a `minlength` attribute, validation ends inside that branch:
meeting the minimum yields `valid` without ever consulting the name-shape or
numeric-only rules.  Only when no `minlength` attribute is present are the
name-shape and then the numeric-only rules checked, and if every reached rule
passes the result is valid with an empty message. -/
theorem validate_rule_order_amended (i : InputEl) (n : Nat) :
    ((i.required && (trimChars i.value.data).isEmpty) = true →
        validateFieldResult i = ⟨false, "This field is required"⟩)
  ∧ ((i.required && (trimChars i.value.data).isEmpty) = false →
      (i.type == "email" && !(trimChars i.value.data).isEmpty
        && !emailChars (trimChars i.value.data)) = true →
        validateFieldResult i = ⟨false, "Please enter a valid email"⟩)
  ∧ ((i.required && (trimChars i.value.data).isEmpty) = false →
      (i.type == "email" && !(trimChars i.value.data).isEmpty
        && !emailChars (trimChars i.value.data)) = false →
      i.minlength = some n → (trimChars i.value.data).length < n →
        validateFieldResult i = ⟨false, s!"Minimum {n} characters required"⟩)
  ∧ ((i.required && (trimChars i.value.data).isEmpty) = false →
      (i.type == "email" && !(trimChars i.value.data).isEmpty
        && !emailChars (trimChars i.value.data)) = false →
      i.minlength = some n → ¬ (trimChars i.value.data).length < n →
        validateFieldResult i = ⟨true, ""⟩)
  ∧ ((i.required && (trimChars i.value.data).isEmpty) = false →
      (i.type == "email" && !(trimChars i.value.data).isEmpty
        && !emailChars (trimChars i.value.data)) = false →
      i.minlength = none →
      (strContains i.id "Name" && !(trimChars i.value.data).isEmpty
        && !nameChars (trimChars i.value.data)) = true →
        validateFieldResult i = ⟨false, "Please enter a valid name (letters only)"⟩)
  ∧ ((i.required && (trimChars i.value.data).isEmpty) = false →
      (i.type == "email" && !(trimChars i.value.data).isEmpty
        && !emailChars (trimChars i.value.data)) = false →
      i.minlength = none →
      (strContains i.id "Name" && !(trimChars i.value.data).isEmpty
        && !nameChars (trimChars i.value.data)) = false →
      (strContains i.id "DOT" && !(trimChars i.value.data).isEmpty
        && !digitChars (trimChars i.value.data)) = true →
        validateFieldResult i = ⟨false, "DOT number must be numeric"⟩)
  ∧ ((i.required && (trimChars i.value.data).isEmpty) = false →
      (i.type == "email" && !(trimChars i.value.data).isEmpty
        && !emailChars (trimChars i.value.data)) = false →
      i.minlength = none →
      (strContains i.id "Name" && !(trimChars i.value.data).isEmpty
        && !nameChars (trimChars i.value.data)) = false →
      (strContains i.id "DOT" && !(trimChars i.value.data).isEmpty
        && !digitChars (trimChars i.value.data)) = false →
        validateFieldResult i = ⟨true, ""⟩) := by
  refine ⟨?_, ?_, ?_, ?_, ?_, ?_, ?_⟩
  · intro h1
    simp [validateFieldResult, h1]
  · intro h1 h2
    simp [validateFieldResult, h1, h2]
  · intro h1 h2 hm h3
    simp [validateFieldResult, h1, h2, hm, h3]
  · intro h1 h2 hm h3
    simp [validateFieldResult, h1, h2, hm, h3]
  · intro h1 h2 hm h3
    simp [validateFieldResult, h1, h2, hm, h3]
  · intro h1 h2 hm h3 h4
    simp [validateFieldResult, h1, h2, hm, h3, h4]
  · intro h1 h2 hm h3 h4
    simp [validateFieldResult, h1, h2, hm, h3, h4]

/-- Witness for the amended C3, at the counterexample input: the met
`minlength` ends validation as valid even though the name rule fails. -/
theorem validate_rule_order_amended_witness :
    validateFieldResult ⟨"John123", "text", "entName", true, some 2, "", false, false⟩
      = ⟨true, ""⟩ :=
  (validate_rule_order_amended
      ⟨"John123", "text", "entName", true, some 2, "", false, false⟩ 2).2.2.2.1
    (by decide) (by decide) rfl (by decide)

/-- Claim C7, counterexample: the code's `validateField` is not free of document-state
effects: on an empty required field it writes the error message into the
error element and adds the `invalid` class, so the element state after the
call differs from the state before. -/
theorem validateField_mutates_ui_counterexample :
    (validateField ⟨"", "text", "entCompany", true, none, "", false, false⟩).2
      ≠ ⟨"", "text", "entCompany", true, none, "", false, false⟩ := by
  decide

/-- Claim C7, amended: The validation verdict is a pure, deterministic function
of the field value and its rule attributes: two elements agreeing on value,
type, id, required-ness and minlength get the same `{valid, message}` result
and the same returned flag, whatever their current UI state.  (The document
mutation exhibited by the counterexample is the only effect.) -/
theorem validateField_result_deterministic (i j : InputEl)
    (hv : i.value = j.value) (ht : i.type = j.type) (hid : i.id = j.id)
    (hr : i.required = j.required) (hm : i.minlength = j.minlength) :
    validateFieldResult i = validateFieldResult j
  ∧ (validateField i).1 = (validateField j).1 := by
  have key : ∀ k : InputEl,
      validateFieldResult k
        = validateFieldResult ⟨k.value, k.type, k.id, k.required, k.minlength,
            "", false, false⟩ :=
    fun k => rfl
  have hres : validateFieldResult i = validateFieldResult j := by
    rw [key i, key j, hv, ht, hid, hr, hm]
  refine ⟨hres, ?_⟩
  show (validateFieldResult i).valid = (validateFieldResult j).valid
  rw [hres]

/-- Witness for the amended C7: two elements with the same value and rules but
different UI state validate identically. -/
theorem validateField_result_deterministic_witness :
    validateFieldResult ⟨"x", "text", "f", false, none, "", false, false⟩
        = validateFieldResult ⟨"x", "text", "f", false, none, "old error", true, false⟩
  ∧ (validateField ⟨"x", "text", "f", false, none, "", false, false⟩).1
      = (validateField ⟨"x", "text", "f", false, none, "old error", true, false⟩).1 :=
  validateField_result_deterministic _ _ rfl rfl rfl rfl rfl

/-- Claim C2: Within one session (started by `initState`), over every sequence
of handler invocations, at most one `scroll_depth` event per depth value and
at most one `time_on_page` event per seconds value is ever in the log, and a
milestone value once added to its set is never removed. -/
theorem milestone_events_fire_at_most_once (sid : String) (r : ℚ) (t0 : Int)
    (ts0 : String) (acts : List Act) (m : Int) :
    depthCount m (run (initState sid r t0 ts0) acts).events ≤ 1
  ∧ timeCount m (run (initState sid r t0 ts0) acts).events ≤ 1
  ∧ (∀ st : AppState, m ∈ st.scrollDepths → m ∈ (run st acts).scrollDepths)
  ∧ (∀ st : AppState, m ∈ st.timeMilestones → m ∈ (run st acts).timeMilestones) := by
  obtain ⟨hs, ht⟩ := initState_inv m sid r t0 ts0
  exact ⟨(run_scrollInv m acts _ hs).1, (run_timeInv m acts _ ht).1,
    fun st h => run_scrollDepths_mono m acts st h,
    fun st h => run_timeMilestones_mono m acts st h⟩

/-- Witness for C2: two scroll invocations both past 100% after a fresh load,
and milestone sets surviving a timer tick. -/
theorem milestone_events_fire_at_most_once_witness :
    depthCount 25 (run (initState "s" 0 0 "t0")
        [Act.actScroll 100 "t1", Act.actScroll 100 "t2"]).events ≤ 1
  ∧ (25 : Int) ∈ (run ⟨"s", "A", 0, [], [], [25], [30], false, false, false⟩
        [Act.actTick 60 "t3"]).scrollDepths
  ∧ (30 : Int) ∈ (run ⟨"s", "A", 0, [], [], [25], [30], false, false, false⟩
        [Act.actTick 60 "t3"]).timeMilestones :=
  ⟨(milestone_events_fire_at_most_once "s" 0 0 "t0"
      [Act.actScroll 100 "t1", Act.actScroll 100 "t2"] 25).1,
   (milestone_events_fire_at_most_once "s" 0 0 "t0" [Act.actTick 60 "t3"] 25).2.2.1
      ⟨"s", "A", 0, [], [], [25], [30], false, false, false⟩ (by decide),
   (milestone_events_fire_at_most_once "s" 0 0 "t0" [Act.actTick 60 "t3"] 30).2.2.2
      ⟨"s", "A", 0, [], [], [25], [30], false, false, false⟩ (by decide)⟩

/-- Claim C8: On every countdown tick, a non-positive remaining difference
renders exactly `"Expired"`, and exactly one second before the target instant
the rendered text is exactly `"0d 0h 0m 1s"`. -/
theorem countdown_expired_and_last_second :
    (∀ endTime now : Int, endTime - now ≤ 0 → updateCountdown endTime now = "Expired")
  ∧ (∀ endTime : Int, updateCountdown endTime (endTime - 1000) = "0d 0h 0m 1s") := by
  constructor
  · intro e n h
    simp [updateCountdown, h]
  · intro e
    have hd : e - (e - 1000) = 1000 := by ring
    simp only [updateCountdown, hd]
    norm_num
    rfl

/-- Witness for C8: a concrete expired tick and a concrete final-second
tick. -/
theorem countdown_expired_and_last_second_witness :
    updateCountdown 0 5 = "Expired"
  ∧ updateCountdown 1000 (1000 - 1000) = "0d 0h 0m 1s" :=
  ⟨countdown_expired_and_last_second.1 0 5 (by decide),
   countdown_expired_and_last_second.2 1000⟩

/-- Claim C9: At session start exactly one variant is assigned: it is always
`A` or `B`, it is `A` exactly when the uniform draw is below one half, and
under the standard model of the browser's uniform draw (the `2^53` equally
likely dyadic values in `[0,1)`) each variant is hit by exactly half of the
draws.  No handler invocation ever changes the session's `sessionId`,
`variant` or `startTime`. -/
theorem variant_assignment_and_session_immutable :
    (∀ r : ℚ, assignVariant r = "A" ∨ assignVariant r = "B")
  ∧ (∀ r : ℚ, assignVariant r = "A" ↔ r < 1 / 2)
  ∧ ((Finset.range (2 ^ 53)).filter
        (fun k => assignVariant (dyadicDraw k) = "A")).card * 2 = 2 ^ 53
  ∧ ((Finset.range (2 ^ 53)).filter
        (fun k => assignVariant (dyadicDraw k) = "B")).card * 2 = 2 ^ 53
  ∧ (∀ (sid : String) (r : ℚ) (t0 : Int) (ts : String),
        (initState sid r t0 ts).variant = assignVariant r)
  ∧ (∀ (st : AppState) (acts : List Act),
        (run st acts).sessionId = st.sessionId
          ∧ (run st acts).variant = st.variant
          ∧ (run st acts).startTime = st.startTime) := by
  have hA : ∀ r : ℚ, assignVariant r = "A" ↔ r < 1 / 2 := by
    intro r
    unfold assignVariant
    split
    · rename_i h
      exact iff_of_true rfl h
    · rename_i h
      exact iff_of_false (show ¬ ("B" : String) = "A" by decide) h
  have hB : ∀ r : ℚ, assignVariant r = "B" ↔ ¬ r < 1 / 2 := by
    intro r
    unfold assignVariant
    split
    · rename_i h
      exact iff_of_false (show ¬ ("A" : String) = "B" by decide) (not_not_intro h)
    · rename_i h
      exact iff_of_true rfl h
  have hcast : ∀ k : ℕ, ((k : ℚ) < 2 ^ 52 ↔ k < 2 ^ 52) := by
    intro k
    constructor
    · intro h
      exact_mod_cast h
    · intro h
      exact_mod_cast h
  have hlt : ∀ k : ℕ, (dyadicDraw k < 1 / 2 ↔ k < 2 ^ 52) := by
    intro k
    rw [dyadicDraw, div_lt_iff₀ (by positivity : (0 : ℚ) < 2 ^ 53),
      show (1 : ℚ) / 2 * 2 ^ 53 = 2 ^ 52 by norm_num]
    exact hcast k
  have hsetA : (Finset.range (2 ^ 53)).filter
      (fun k => assignVariant (dyadicDraw k) = "A") = Finset.range (2 ^ 52) := by
    ext k
    simp only [Finset.mem_filter, Finset.mem_range, hA, hlt]
    constructor
    · rintro ⟨-, h⟩
      exact h
    · intro h
      exact ⟨lt_of_lt_of_le h (by norm_num), h⟩
  have hsetB : (Finset.range (2 ^ 53)).filter
      (fun k => assignVariant (dyadicDraw k) = "B")
        = Finset.Ico (2 ^ 52) (2 ^ 53) := by
    ext k
    simp only [Finset.mem_filter, Finset.mem_range, Finset.mem_Ico, hB, hlt, not_lt]
    constructor
    · rintro ⟨h1, h2⟩
      exact ⟨h2, h1⟩
    · rintro ⟨h1, h2⟩
      exact ⟨h2, h1⟩
  refine ⟨?_, hA, ?_, ?_, fun sid r t0 ts => rfl, ?_⟩
  · intro r
    unfold assignVariant
    split
    · exact Or.inl rfl
    · exact Or.inr rfl
  · rw [hsetA, Finset.card_range]
    norm_num
  · rw [hsetB, Nat.card_Ico]
    norm_num
  · intro st acts
    have h := run_sessionView acts st
    exact ⟨congrArg (fun t => t.1) h, congrArg (fun t => t.2.1) h,
      congrArg (fun t => t.2.2) h⟩
